import Mathlib

/-!
# Verification of the YarnSpinner-Rust compiler pipeline and dialogue runtime

A shallow embedding of the compiler pipeline (`crates/compiler/src/compiler.rs`),
the dialogue façade (`crates/runtime/src/dialogue.rs`) and the substitution
expansion helper (`crates/runtime/src/dialogue/read_only_dialogue.rs`), together
with proofs about the behaviour the specification ascribes to them.

Modelling conventions:
* Rust `f32` numbers are modelled as `ℚ`; every value the claims exercise is a
  small integer, which `f32` represents exactly.
* Rust `HashMap`s whose iteration order is never observable are modelled as
  association lists (`List (κ × ν)`) when both runs under comparison build them
  in the same order, and as `Finset (κ × ν)` where hash-iteration-order
  independence itself is the property being proved (`Program.initial_values`).
* Rust `HashSet`s are modelled as `Finset`s; the unobservable iteration order
  used when a `HashSet` is collected back into a `Vec` is modelled by an
  explicit `HashChoice` parameter constrained to produce some enumeration of
  the set, exactly the guarantee `std::collections` gives.
* The external ANTLR visitors (parser, string-table generator, declaration,
  type-check, tracking and code-generation visitors), which the specification
  treats as external collaborators, are modelled as an abstract bundle `Externals`
  of deterministic functions from file (and accumulated state) to outputs.
-/

/-- Severity of a `Diagnostic` (`DiagnosticSeverity` in the compiler output types). -/
inductive DiagnosticSeverity
  | error
  | warning
  | info
deriving DecidableEq

/-- A compiler diagnostic. Modelled from the spec: severity, message and source
location; structural equality is derived field-wise, matching the `Hash + Eq`
derivation the Rust type needs to live in a `HashSet`. -/
structure Diagnostic where
  message : String
  fileName : Option String
  startLine : Nat
  severity : DiagnosticSeverity
deriving DecidableEq

/-- `true` iff the diagnostic has `Error` severity, as tested by `generate_code`. -/
def Diagnostic.isError (d : Diagnostic) : Bool :=
  d.severity == DiagnosticSeverity.error

/-- The tagged union of runtime values (`YarnValue`): String, Number, Boolean. -/
inductive YarnValue
  | str (s : String)
  | number (n : ℚ)
  | boolean (b : Bool)
deriving DecidableEq

/-- A literal operand of a compiled instruction (`Operand` in the program model). -/
inductive Operand
  | stringOperand (s : String)
  | boolOperand (b : Bool)
  | floatOperand (n : ℚ)
deriving DecidableEq

/-- The type of a declaration: String, Number, Boolean or a function signature.
The claims only ever distinguish `function` from the concrete types, so the
signature payload is not modelled. -/
inductive YarnType
  | str
  | number
  | boolean
  | function
deriving DecidableEq

/-- A variable declaration known to the compiler (`Declaration`). -/
structure Declaration where
  name : String
  declType : Option YarnType
  defaultValue : Option YarnValue
  description : String
deriving DecidableEq

/-- A deferred type diagnostic produced by the type-check visitor; opaque to
every claim, carried through the pipeline as in `CompilationIntermediate`. -/
structure DeferredTypeDiagnostic where
  name : String
  diagnostic : Diagnostic
deriving DecidableEq

/-- One compiled instruction: an opcode plus literal operands (spec §3). -/
structure Instruction where
  opcode : Nat
  operands : List Operand
deriving DecidableEq

/-- A compiled node (spec §3): name, instruction sequence, jump-label table,
source tags and the name of its visit-tracking variable, if tracked. -/
structure Node where
  name : String
  instructions : List Instruction
  labels : List (String × Nat)
  tags : List String
  trackingVariableName : Option String
deriving DecidableEq

/-- A compiled program. `nodes` is the node map keyed by node name, kept as an
association list in insertion order; `initialValues` is the variable-seed map,
kept as a finite set of pairs because the Rust `HashMap`'s equality and the
claims about it are insertion-order independent. -/
structure Program where
  nodes : List (String × Node)
  initialValues : Finset (String × Operand)
deriving DecidableEq

/-- The node names of a program, in node-map order. -/
def Program.nodeNames (p : Program) : List String :=
  p.nodes.map Prod.fst

/-- Modelled from the spec (`Program::combine` lives outside the shown sources;
`dialogue.rs` only calls it and unwraps the `Option` it returns): two programs
combine by merging their node maps, a colliding node name is a conflict
reported as `none` — the error policy the spec recommends — and combining an
empty collection of programs yields no program at all, which is why
`Dialogue::add_program` can `unwrap` the result of a two-element combine. -/
def Program.mergeTwo (a b : Program) : Option Program :=
  if ∀ n ∈ a.nodeNames, n ∉ b.nodeNames then
    some { nodes := a.nodes ++ b.nodes, initialValues := a.initialValues ∪ b.initialValues }
  else
    none

/-- Modelled from the spec: fold `Program.mergeTwo` over a list of programs;
an empty list has no program to return. -/
def Program.combine : List Program → Option Program
  | [] => none
  | p :: ps => ps.foldl (fun acc q => acc.bind fun a => Program.mergeTwo a q) (some p)

/-- `Program.combine` on exactly two programs, the shape used by
`Dialogue::add_program`. -/
def Program.combine2 (a b : Program) : Option Program :=
  Program.combine [a, b]

theorem combine2_eq_mergeTwo (a b : Program) : Program.combine2 a b = Program.mergeTwo a b := by
  simp [Program.combine2, Program.combine]

theorem mergeTwo_of_disjoint {a b : Program} (h : ∀ n ∈ a.nodeNames, n ∉ b.nodeNames) :
    Program.mergeTwo a b =
      some { nodes := a.nodes ++ b.nodes, initialValues := a.initialValues ∪ b.initialValues } := by
  rw [Program.mergeTwo, if_pos h]

theorem nodeNames_append (a b : Program) :
    Program.nodeNames
        { nodes := a.nodes ++ b.nodes, initialValues := a.initialValues ∪ b.initialValues } =
      a.nodeNames ++ b.nodeNames := by
  simp [Program.nodeNames]

/-- C7: combining programs with pairwise disjoint node-name sets is associative,
and combining two programs sharing a node name yields the defined conflict
result `none`, never a silent overwrite. -/
theorem c7_program_combine_assoc_and_conflict (A B C : Program)
    (hAB : ∀ n ∈ A.nodeNames, n ∉ B.nodeNames)
    (hAC : ∀ n ∈ A.nodeNames, n ∉ C.nodeNames)
    (hBC : ∀ n ∈ B.nodeNames, n ∉ C.nodeNames) :
    ((Program.combine2 A B).bind fun ab => Program.combine2 ab C)
        = ((Program.combine2 B C).bind fun bc => Program.combine2 A bc)
    ∧ ∀ P Q : Program, (∃ n, n ∈ P.nodeNames ∧ n ∈ Q.nodeNames) →
        Program.combine2 P Q = none := by
  constructor
  · simp only [combine2_eq_mergeTwo]
    rw [mergeTwo_of_disjoint hAB, mergeTwo_of_disjoint hBC, Option.some_bind, Option.some_bind]
    have hL : ∀ n ∈ Program.nodeNames
        { nodes := A.nodes ++ B.nodes, initialValues := A.initialValues ∪ B.initialValues },
        n ∉ C.nodeNames := by
      rw [nodeNames_append]
      intro n hn
      rcases List.mem_append.mp hn with h | h
      · exact hAC n h
      · exact hBC n h
    have hR : ∀ n ∈ A.nodeNames, n ∉ Program.nodeNames
        { nodes := B.nodes ++ C.nodes, initialValues := B.initialValues ∪ C.initialValues } := by
      rw [nodeNames_append]
      intro n hn hmem
      rcases List.mem_append.mp hmem with h | h
      · exact hAB n hn h
      · exact hAC n hn h
    rw [mergeTwo_of_disjoint hL, mergeTwo_of_disjoint hR]
    simp [List.append_assoc, Finset.union_assoc]
  · rintro P Q ⟨n, hP, hQ⟩
    rw [combine2_eq_mergeTwo, Program.mergeTwo, if_neg]
    exact fun h => h n hP hQ

/-- A one-node program named `s`, used as a concrete test fixture. -/
def singleNodeProgram (s : String) : Program :=
  { nodes := [(s, { name := s, instructions := [], labels := [], tags := [],
                    trackingVariableName := none })],
    initialValues := ∅ }

/-- Witness for C7 at three concrete disjoint one-node programs. -/
theorem c7_program_combine_assoc_and_conflict_witness :
    (∀ n ∈ (singleNodeProgram "A").nodeNames, n ∉ (singleNodeProgram "B").nodeNames)
    ∧ (∀ n ∈ (singleNodeProgram "A").nodeNames, n ∉ (singleNodeProgram "C").nodeNames)
    ∧ (∀ n ∈ (singleNodeProgram "B").nodeNames, n ∉ (singleNodeProgram "C").nodeNames)
    ∧ (((Program.combine2 (singleNodeProgram "A") (singleNodeProgram "B")).bind
          fun ab => Program.combine2 ab (singleNodeProgram "C"))
        = ((Program.combine2 (singleNodeProgram "B") (singleNodeProgram "C")).bind
          fun bc => Program.combine2 (singleNodeProgram "A") bc)
      ∧ ∀ P Q : Program, (∃ n, n ∈ P.nodeNames ∧ n ∈ Q.nodeNames) →
          Program.combine2 P Q = none) :=
  ⟨by decide, by decide, by decide,
    c7_program_combine_assoc_and_conflict (singleNodeProgram "A") (singleNodeProgram "B")
      (singleNodeProgram "C") (by decide) (by decide) (by decide)⟩

/-! ## Variable storage and the dialogue façade (`crates/runtime/src/dialogue.rs`) -/

/-- The default in-memory variable store (`MemoryVariableStore`), a name → value
map modelled as an association list. -/
def MemoryVariableStore : Type := List (String × YarnValue)

/-- `VariableStorage::get`. -/
def MemoryVariableStore.get (s : MemoryVariableStore) (name : String) : Option YarnValue :=
  (List.lookup name s)

/-- `VariableStorage::set`: replace any existing binding for `name`. -/
def MemoryVariableStore.set (s : MemoryVariableStore) (name : String) (v : YarnValue) :
    MemoryVariableStore :=
  (name, v) :: s.filter fun p => p.1 ≠ name

/-- `dialogue.rs`, `is_node_visited`: reads the shared variable storage at the
key `node_name` — the raw argument the `visited` built-in receives — and
answers `true` exactly when it holds a positive number. -/
def is_node_visited (variable_storage : MemoryVariableStore) (node_name : String) : Bool :=
  match variable_storage.get node_name with
  | some (YarnValue.number count) => count > 0
  | _ => false

/-- `dialogue.rs`, `get_node_visit_count`: reads the shared variable storage at
the key `node_name` and returns the stored number, defaulting to `0`. -/
def get_node_visit_count (variable_storage : MemoryVariableStore) (node_name : String) : ℚ :=
  match variable_storage.get node_name with
  | some (YarnValue.number count) => count
  | _ => 0

/-- Modelled from the spec: `Library::generate_unique_visited_variable_for_node`
is outside the shown sources; the spec (§4.1.5) requires a hidden, deterministic
generated name derived from the node name, which `add_tracking_declarations`
(compiler.rs:132) registers as the tracking declaration's name. Modelled as the
original YarnSpinner's `$Yarn.Internal.Visiting.` prefix; any derived name
distinct from the bare node name exhibits the same behaviour. -/
def generate_unique_visited_variable_for_node (node : String) : String :=
  "$Yarn.Internal.Visiting." ++ node

/-- Modelled from the spec (§4.2): the virtual machine is outside the shown
sources; on every node-complete transition it increments, via the shared
variable storage, the hidden tracking variable registered for that node during
compilation — i.e. the variable named by
`generate_unique_visited_variable_for_node`. -/
def nodeCompleteIncrement (storage : MemoryVariableStore) (node : String) :
    MemoryVariableStore :=
  let key := generate_unique_visited_variable_for_node node
  let current : ℚ :=
    match storage.get key with
    | some (YarnValue.number n) => n
    | _ => 0
  storage.set key (YarnValue.number (current + 1))

/-- C3 (code bug): before any completion of node `Start`, `visited` and
`visited_count` correctly answer `false` and `0`; but after the node-complete
increment has fired for `Start` they *still* answer `false` and `0`, because
the increment is stored under the compiler-generated tracking-variable name
while `is_node_visited` / `get_node_visit_count` (dialogue.rs:268-282) look the
storage up under the raw node name the built-in received. The counter is
present — under the generated key — yet the built-ins never see it. -/
theorem c3_visited_stays_false_after_node_complete :
    is_node_visited ([] : MemoryVariableStore) "Start" = false
    ∧ get_node_visit_count ([] : MemoryVariableStore) "Start" = 0
    ∧ is_node_visited (nodeCompleteIncrement ([] : MemoryVariableStore) "Start") "Start" = false
    ∧ get_node_visit_count (nodeCompleteIncrement ([] : MemoryVariableStore) "Start") "Start" = 0
    ∧ get_node_visit_count (nodeCompleteIncrement ([] : MemoryVariableStore) "Start")
        (generate_unique_visited_variable_for_node "Start") = 1 := by
  refine ⟨rfl, rfl, by decide, by decide, ?_⟩
  simp [get_node_visit_count, nodeCompleteIncrement, MemoryVariableStore.get,
    MemoryVariableStore.set, generate_unique_visited_variable_for_node, List.lookup]

/-- The VM execution states the spec names (§4.2). The `continue_` guard in
`dialogue.rs` only ever distinguishes `running` from the rest. -/
inductive ExecutionState
  | stopped
  | waitingOnOptionSelection
  | running
deriving DecidableEq

/-- The virtual machine state owned by a `Dialogue`. The VM internals are
outside the shown sources; the fields here are the externally visible
components the spec names, and the VM's step behaviour is left as an arbitrary
function wherever a theorem needs it. -/
structure VirtualMachine where
  program : Option Program
  executionState : ExecutionState
  currentNodeName : Option String
deriving DecidableEq

/-- One handler invocation observable by the embedder (spec §6). -/
inductive HandlerEvent
  | line (lineId : String)
  | options (count : Nat)
  | command (text : String)
  | nodeStart (node : String)
  | nodeComplete (node : String)
  | dialogueComplete
  | prepareForLines (lineIds : List String)
deriving DecidableEq

/-- The dialogue façade (`Dialogue`): shared variable storage, locale and the
exclusively owned VM. The library and handler fields hold functions and are
not part of the state the claims compare. -/
structure Dialogue where
  variableStorage : MemoryVariableStore
  languageCode : Option String
  vm : VirtualMachine

/-- `Dialogue::continue_` (dialogue.rs:260-265): the body of
`VirtualMachine::continue_` is outside the shown sources, so it is taken as an
arbitrary function `vmContinue` from a VM state to a successor state plus the
handler invocations it performs; the guard in `dialogue.rs` only calls it when
the VM is not already `running`. -/
def Dialogue.continue_ (vmContinue : VirtualMachine → VirtualMachine × List HandlerEvent)
    (d : Dialogue) : Dialogue × List HandlerEvent :=
  -- Cannot 'continue' an already running VM.
  if d.vm.executionState ≠ ExecutionState.running then
    let stepped := vmContinue d.vm
    ({ d with vm := stepped.1 }, stepped.2)
  else
    (d, [])

/-- C4: calling `continue_` while the VM is already `Running` is a no-op for
*every* possible VM step function: the dialogue is returned unchanged in every
component and no handler event is emitted. -/
theorem c4_continue_noop_when_running
    (vmContinue : VirtualMachine → VirtualMachine × List HandlerEvent)
    (d : Dialogue) (h : d.vm.executionState = ExecutionState.running) :
    Dialogue.continue_ vmContinue d = (d, []) := by
  rw [Dialogue.continue_, if_neg]
  simp [h]

/-- Witness for C4: a concrete running dialogue and a VM step that would stop
the VM and fire a handler if it were invoked; the guarded call changes nothing. -/
theorem c4_continue_noop_when_running_witness :
    (let d : Dialogue :=
      { variableStorage := [], languageCode := none,
        vm := { program := none, executionState := ExecutionState.running,
                currentNodeName := some "Start" } }
     let step : VirtualMachine → VirtualMachine × List HandlerEvent := fun vm =>
      ({ vm with executionState := ExecutionState.stopped }, [HandlerEvent.dialogueComplete])
     Dialogue.continue_ step d = (d, [])) :=
  c4_continue_noop_when_running _ _ rfl

/-! ## Substitution expansion (`read_only_dialogue.rs`) -/

/-- Replace every non-overlapping occurrence of `pat` in the subject, scanning
left to right, as Rust's `str::replace` does. `fuel` bounds the recursion;
`strReplace` supplies the subject's length, which suffices because every step
consumes at least one character (every marker pattern is nonempty). -/
def replaceFuel (pat rep : List Char) : Nat → List Char → List Char
  | 0, l => l
  | _ + 1, [] => []
  | fuel + 1, c :: rest =>
    if pat <+: c :: rest then
      rep ++ replaceFuel pat rep fuel (rest.drop (pat.length - 1))
    else
      c :: replaceFuel pat rep fuel rest

/-- Rust `str::replace` applied to the characters of the strings. -/
def strReplace (text pat rep : String) : String :=
  String.mk (replaceFuel pat.data rep.data text.data.length text.data)

/-- The substitution marker built by `format!` for index `i`: `\x7b`, the
decimal index, `\x7d`. -/
def markerString (i : Nat) : String :=
  "\x7b" ++ toString i ++ "\x7d"

/-- The enumerate-and-fold loop of `expand_substitutions`, with the running
index made explicit. -/
def expandLoop : Nat → String → List String → String
  | _, text, [] => text
  | i, text, sub :: rest => expandLoop (i + 1) (strReplace text (markerString i) sub) rest

/-- `ReadOnlyDialogue::expand_substitutions` (read_only_dialogue.rs:90-100):
enumerate the substitutions and fold, replacing every occurrence of the marker
for index `i` with the `i`-th substitution in the accumulated text. -/
def expand_substitutions (text : String) (substitutions : List String) : String :=
  expandLoop 0 text substitutions

theorem replaceFuel_noop (pat rep : List Char) (fuel : Nat) (l : List Char)
    (h : ¬ pat <:+: l) : replaceFuel pat rep fuel l = l := by
  induction fuel generalizing l with
  | zero => rfl
  | succ n ih =>
    cases l with
    | nil => rfl
    | cons c rest =>
      have hp : ¬ pat <+: c :: rest := fun hp => h (List.infix_cons_iff.mpr (Or.inl hp))
      have ht : ¬ pat <:+: rest := fun hi => h (List.infix_cons_iff.mpr (Or.inr hi))
      simp only [replaceFuel, if_neg hp, ih rest ht]

theorem strReplace_noop (text pat rep : String) (h : ¬ pat.data <:+: text.data) :
    strReplace text pat rep = text := by
  rw [strReplace, replaceFuel_noop _ _ _ _ h]

theorem expandLoop_noop (subs : List String) (j : Nat) (text : String)
    (h : ∀ k, k < subs.length → ¬ (markerString (j + k)).data <:+: text.data) :
    expandLoop j text subs = text := by
  induction subs generalizing j with
  | nil => rfl
  | cons sub rest ih =>
    have h0 : ¬ (markerString j).data <:+: text.data := by
      have := h 0 (by simp)
      simpa using this
    rw [expandLoop, strReplace_noop _ _ _ h0]
    refine ih (j + 1) fun k hk => ?_
    have e : j + (k + 1) = j + 1 + k := by omega
    have := h (k + 1) (by simpa using Nat.succ_lt_succ hk)
    rw [e] at this
    exact this

/-- C10 counterexample: on text `\x7b0\x7d` with substitutions
`[\x7b1\x7d, X]`, the claim predicts the output `\x7b1\x7d` (the only marker
occurring *in the text* is `\x7b0\x7d`, to be replaced by the 0-th
substitution), but the code replaces sequentially, so the marker introduced by
the first substitution is rewritten by the second and the result is `X`. -/
theorem c10_expand_substitutions_counterexample :
    expand_substitutions "\x7b0\x7d" ["\x7b1\x7d", "X"] = "X"
    ∧ ("X" : String) ≠ "\x7b1\x7d" :=
  ⟨by decide, by decide⟩

/-- C10 (amended): `expand_substitutions` performs the replacements
sequentially in increasing index order, each full-string replacement acting on
the output of the previous one — so a marker introduced by an earlier
substitution is itself replaced by a later one. A text in which no marker with
a corresponding substitution occurs is returned unchanged; in particular a
marker-free text is unchanged and a marker whose index has no corresponding
element survives. Each in-range marker occurrence is replaced by its
substitution. -/
theorem c10_expand_substitutions_sequential :
    (∀ (text : String) (subs : List String),
        (∀ i, i < subs.length → ¬ (markerString i).data <:+: text.data) →
        expand_substitutions text subs = text)
    ∧ expand_substitutions "a \x7b0\x7d b \x7b1\x7d" ["x", "y"] = "a x b y"
    ∧ expand_substitutions "\x7b2\x7d" ["x", "y"] = "\x7b2\x7d"
    ∧ expand_substitutions "\x7b0\x7d" ["\x7b1\x7d", "X"] = "X" := by
  refine ⟨?_, by decide, by decide, by decide⟩
  intro text subs h
  exact expandLoop_noop subs 0 text fun k hk => by simpa using h k hk

/-- Witness for C10 (amended) at a concrete marker-free text. -/
theorem c10_expand_substitutions_sequential_witness :
    (∀ i, i < (["a", "b"] : List String).length →
        ¬ (markerString i).data <:+: ("hello" : String).data)
    ∧ expand_substitutions "hello" ["a", "b"] = "hello" :=
  ⟨by decide, c10_expand_substitutions_sequential.1 "hello" ["a", "b"] (by decide)⟩

/-! ## Compiler pipeline (`crates/compiler/src/compiler.rs`) -/

/-- One entry of the string table (spec §3): line text, owning node and
metadata. -/
structure StringInfo where
  text : String
  nodeName : String
  lineNumber : Nat
  fileName : String
  isImplicitTag : Bool
  tags : List String
deriving DecidableEq

/-- Insert into an association list, replacing an existing binding in place. -/
def listInsert {α β : Type} [DecidableEq α] (k : α) (v : β) :
    List (α × β) → List (α × β)
  | [] => [(k, v)]
  | (k', v') :: rest => if k' = k then (k, v) :: rest else (k', v') :: listInsert k v rest

/-- The string-table manager accumulated by `register_strings`: the LineId →
`StringInfo` map (an association list, insertion ordered) plus the
contains-implicit-string-tags flag. Modelled from the spec: the
`string_table_manager` module is outside the shown sources; `extend` merges
the other manager's entries into the map, replacing equal keys. -/
structure StringTableM where
  entries : List (String × StringInfo)
  containsImplicit : Bool
deriving DecidableEq

/-- `StringTableManager::extend`. -/
def StringTableM.extend (a b : StringTableM) : StringTableM :=
  { entries := b.entries.foldl (fun acc p => listInsert p.1 p.2 acc) a.entries
    containsImplicit := a.containsImplicit || b.containsImplicit }

/-- `StringTableManager::default()`. -/
def StringTableM.empty : StringTableM :=
  { entries := [], containsImplicit := false }

/-- Per-node debug information (source file / node mapping, spec §3). -/
structure DebugInfo where
  fileName : String
  nodeName : String
deriving DecidableEq

/-- The result of a compilation (spec §3, §6). Modelled from the spec: the
`output` module is outside the shown sources; the fields are the ones the spec
names and `compiler.rs` manipulates. -/
structure CompilationResult where
  program : Option Program
  diagnostics : List Diagnostic
  stringTable : List (String × StringInfo)
  containsImplicitStringTags : Bool
  declarations : List Declaration
  debugInfo : List (String × DebugInfo)
deriving DecidableEq

/-- `CompilationResult::default()`. -/
def CompilationResult.empty : CompilationResult :=
  { program := none, diagnostics := [], stringTable := [],
    containsImplicitStringTags := false, declarations := [], debugInfo := [] }

/-- Modelled from the spec (§4.1.6): `CompilationResult::combine` is outside
the shown sources; the per-file results' programs are merged into a single
program via `Program.combine` (no per-file program — in particular an empty
result list — yields no program), their diagnostics and debug info are
concatenated, and the string table is taken from the accumulated manager, so
the string table is returned even when codegen was skipped. -/
def CompilationResult.combine (results : List CompilationResult)
    (stringTable : StringTableM) : CompilationResult :=
  { program := Program.combine (results.filterMap fun r => r.program)
    diagnostics := (results.map fun r => r.diagnostics).flatten
    stringTable := stringTable.entries
    containsImplicitStringTags := stringTable.containsImplicit
    declarations := []
    debugInfo := (results.map fun r => r.debugInfo).flatten }

/-- One input file of a compilation job (`File`). -/
structure YarnFile where
  fileName : String
  source : String
deriving DecidableEq

/-- The compilation mode (`CompilationType`). The shown pipeline does not
branch on it. -/
inductive CompilationType
  | fullCompilation
  | declarationsOnly
  | stringsOnly
deriving DecidableEq

/-- A compilation job (`CompilationJob`): ordered files, mode and seed
declarations. The optional seed `Library` holds functions and is not observed
by any pass shown, so it is not modelled. -/
structure CompilationJob where
  files : List YarnFile
  compilationType : CompilationType
  variableDeclarations : List Declaration
deriving DecidableEq

/-- The per-expression known-type map produced by type checking; opaque to the
claims, threaded to code generation as in the source. -/
abbrev KnownTypes := List (Nat × YarnType)

/-- What the code-generation listener (`CompilerListener`) produces for one
file: the tracking nodes it discovered, its diagnostics, the compiled program
for the file's nodes and per-node debug info. -/
structure CodegenOutput where
  trackingNodes : Finset String
  diagnostics : List Diagnostic
  program : Program
  debugInfos : List DebugInfo

/-- The bundle of external collaborators (spec §1, §6): the ANTLR parser and
the visitors that walk its trees, each a deterministic function of the file
and the accumulated state handed to it in `compiler.rs`. A parsed file is
identified with its `YarnFile`, standing for the cached syntax tree. -/
structure Externals where
  /-- `parse_syntax_tree`: diagnostics appended while parsing the file. -/
  parseDiagnostics : YarnFile → List Diagnostic
  /-- `StringTableGeneratorVisitor` (run after the last-line tagger):
  diagnostics and the string-table manager built from the current table. -/
  stringVisit : StringTableM → YarnFile → List Diagnostic × StringTableM
  /-- `DeclarationVisitor`: new declarations, diagnostics and file tags. -/
  declVisit : List Declaration → YarnFile → List Declaration × List Diagnostic × List String
  /-- `TypeCheckVisitor`: new declarations, diagnostics, deferred type
  diagnostics and known expression types. -/
  typeVisit : List Declaration → YarnFile →
    List Declaration × List Diagnostic × List DeferredTypeDiagnostic × KnownTypes
  /-- `NodeTrackingVisitor`: (tracking nodes, ignoring nodes). -/
  trackVisit : YarnFile → Finset String × Finset String
  /-- The `CompilerListener` walk: per-file code generation. -/
  codegenFile : Finset String → KnownTypes → YarnFile → CodegenOutput

/-- The iteration orders one run of the Rust program happens to observe when
its `HashSet`s are iterated: an enumeration function for the final diagnostics
set and one for the tracking-nodes set. -/
structure HashChoice where
  diagIter : List Diagnostic → List Diagnostic
  trackIter : Finset String → List String

/-- What `std::collections::HashSet` guarantees of any iteration: it
enumerates exactly the distinct elements, each once, in some order. -/
structure HashChoice.Admissible (c : HashChoice) : Prop where
  diag_perm : ∀ l, List.Perm (c.diagIter l) l.dedup
  track_nodup : ∀ s, (c.trackIter s).Nodup
  track_toFinset : ∀ s, (c.trackIter s).toFinset = s

/-- `CompilationIntermediate`: the accumulator state threaded through the
seven passes. -/
structure Intermediate where
  job : CompilationJob
  result : Option CompilationResult
  knownVariableDeclarations : List Declaration
  derivedVariableDeclarations : List Declaration
  potentialIssues : List DeferredTypeDiagnostic
  parsedFiles : List YarnFile
  trackingNodes : Finset String
  stringTable : StringTableM
  diagnostics : List Diagnostic
  fileTags : List (String × List String)
  knownTypes : KnownTypes

/-- `CompilationIntermediate::from_job`. -/
def Intermediate.fromJob (job : CompilationJob) : Intermediate :=
  { job := job, result := none, knownVariableDeclarations := [],
    derivedVariableDeclarations := [], potentialIssues := [], parsedFiles := [],
    trackingNodes := ∅, stringTable := StringTableM.empty, diagnostics := [],
    fileTags := [], knownTypes := [] }

/-- Pass 1, `register_strings` (compiler.rs:68-89): parse every job file, run
the string-table generator over it, accumulate diagnostics and string-table
entries, and cache the parsed file. -/
def register_strings (ext : Externals) (state : Intermediate) : Intermediate :=
  state.job.files.foldl
    (fun st file =>
      let parseDiags := ext.parseDiagnostics file
      let visited := ext.stringVisit st.stringTable file
      { st with
        diagnostics := st.diagnostics ++ parseDiags ++ visited.1
        stringTable := st.stringTable.extend visited.2
        parsedFiles := st.parsedFiles ++ [file] })
    state

/-- Pass 2, `get_declarations` (compiler.rs:43-66). -/
def get_declarations (ext : Externals) (state : Intermediate) : Intermediate :=
  state.parsedFiles.foldl
    (fun st file =>
      let v := ext.declVisit st.knownVariableDeclarations file
      { st with
        knownVariableDeclarations := st.knownVariableDeclarations ++ v.1
        derivedVariableDeclarations := st.derivedVariableDeclarations ++ v.1
        diagnostics := st.diagnostics ++ v.2.1
        fileTags := listInsert file.fileName v.2.2 st.fileTags })
    state

/-- Pass 3, `check_types` (compiler.rs:107-123). -/
def check_types (ext : Externals) (state : Intermediate) : Intermediate :=
  state.parsedFiles.foldl
    (fun st file =>
      let v := ext.typeVisit st.knownVariableDeclarations file
      { st with
        knownVariableDeclarations := st.knownVariableDeclarations ++ v.1
        derivedVariableDeclarations := st.derivedVariableDeclarations ++ v.1
        diagnostics := st.diagnostics ++ v.2.1
        potentialIssues := st.potentialIssues ++ v.2.2.1
        knownTypes := st.knownTypes ++ v.2.2.2 })
    state

/-- Pass 4, `find_tracking_nodes` (compiler.rs:91-105): union the per-file
tracking and opt-out node sets, then store their set difference. -/
def find_tracking_nodes (ext : Externals) (state : Intermediate) : Intermediate :=
  let sets := state.parsedFiles.foldl
    (fun acc file => (acc.1 ∪ (ext.trackVisit file).1, acc.2 ∪ (ext.trackVisit file).2))
    ((∅ : Finset String), (∅ : Finset String))
  { state with trackingNodes := sets.1 \ sets.2 }

/-- The tracking declaration synthesized for one tracked node
(compiler.rs:129-137): generated name, type Number, default value 0. -/
def trackingDeclaration (node : String) : Declaration :=
  { name := generate_unique_visited_variable_for_node node
    declType := some YarnType.number
    defaultValue := some (YarnValue.number 0)
    description := "The generated variable for tracking visits of node " ++ node }

/-- Pass 5, `add_tracking_declarations` (compiler.rs:125-150): iterate the
tracking-nodes set (in the order this run observes) and append the synthesized
declarations to both declaration views. -/
def add_tracking_declarations (choice : HashChoice) (state : Intermediate) : Intermediate :=
  let trackingDecls := (choice.trackIter state.trackingNodes).map trackingDeclaration
  { state with
    knownVariableDeclarations := state.knownVariableDeclarations ++ trackingDecls
    derivedVariableDeclarations := state.derivedVariableDeclarations ++ trackingDecls }

/-- `generate_code_for_file` (compiler.rs:187-234): walk the compiler listener
over the file, feed the tracking nodes it found back into the shared set, and
build the per-file result — without a program if the listener reported an
Error-severity diagnostic. -/
def generate_code_for_file (ext : Externals) (trackingNodes : Finset String)
    (knownTypes : KnownTypes) (template : CompilationResult) (file : YarnFile) :
    CompilationResult × Finset String :=
  let out := ext.codegenFile trackingNodes knownTypes file
  let trackingNodes := trackingNodes ∪ out.trackingNodes
  if out.diagnostics.any Diagnostic.isError then
    ({ template with program := none, diagnostics := out.diagnostics }, trackingNodes)
  else
    ({ template with
        program := some out.program
        diagnostics := out.diagnostics
        debugInfo := out.debugInfos.map fun di => (di.nodeName, di) }, trackingNodes)

/-- The `results` vector of `generate_code` (compiler.rs:157-179) together
with the tracking-node set it threads through `generate_code_for_file`: empty
when any accumulated diagnostic has Error severity, otherwise one per-file
result generated from a template carrying the string table. -/
def generatedResults (ext : Externals) (state : Intermediate) :
    List CompilationResult × Finset String :=
  let hasErrors := state.diagnostics.any Diagnostic.isError
  if hasErrors then
    (([] : List CompilationResult), state.trackingNodes)
  else
    let template := { CompilationResult.empty with
      stringTable := state.stringTable.entries
      containsImplicitStringTags := state.stringTable.containsImplicit }
    state.parsedFiles.foldl
      (fun acc file =>
        let r := generate_code_for_file ext acc.2 state.knownTypes template file
        (acc.1 ++ [r.1], r.2))
      (([] : List CompilationResult), state.trackingNodes)

/-- Pass 6, `generate_code` (compiler.rs:152-185): if any diagnostic so far
has Error severity, codegen is skipped and there are no per-file results;
otherwise each parsed file is generated. Either way the combined result is
stored on the state. -/
def generate_code (ext : Externals) (state : Intermediate) : Intermediate :=
  { state with
    result := some (CompilationResult.combine (generatedResults ext state).1 state.stringTable)
    trackingNodes := (generatedResults ext state).2 }

/-- `Type::format` as interpolated into the missing-default message. -/
def formatDeclType : Option YarnType → String
  | some YarnType.str => "String"
  | some YarnType.number => "Number"
  | some YarnType.boolean => "Bool"
  | some YarnType.function => "Function"
  | none => "undefined"

/-- The missing-default-value diagnostic built at compiler.rs:249-252. -/
def missingDefaultDiagnostic (decl : Declaration) : Diagnostic :=
  { message := "Variable declaration " ++ decl.name ++ " (type "
      ++ formatDeclType decl.declType ++ ") has a null default value. This is not allowed."
    fileName := none, startLine := 0, severity := DiagnosticSeverity.error }

/-- The `Operand::from(...try_from(default_value).unwrap())` conversions at
compiler.rs:255-259. The source `unwrap`s: a default value whose kind
disagrees with the declared type panics there; the model returns the sentinel
of the declared kind, a case no claim exercises. -/
def operandOfDefault : Option YarnType → YarnValue → Operand
  | some YarnType.str, YarnValue.str s => Operand.stringOperand s
  | some YarnType.number, YarnValue.number n => Operand.floatOperand n
  | some YarnType.boolean, YarnValue.boolean b => Operand.boolOperand b
  | some YarnType.str, _ => Operand.stringOperand ""
  | some YarnType.number, _ => Operand.floatOperand 0
  | some YarnType.boolean, _ => Operand.boolOperand false
  | _, _ => Operand.stringOperand ""

/-- `HashMap::insert` on the initial-values map. -/
def mapInsert (k : String) (v : Operand) (m : Finset (String × Operand)) :
    Finset (String × Operand) :=
  insert (k, v) (m.filter fun p => p.1 ≠ k)

/-- One iteration of the loop at compiler.rs:247-265: a declaration without a
default value pushes a diagnostic onto the result (and registers nothing); one
with a default value inserts its initial value into the program, if a program
is present. -/
def registerInitialValue (res : CompilationResult) (decl : Declaration) : CompilationResult :=
  match decl.defaultValue with
  | none => { res with diagnostics := res.diagnostics ++ [missingDefaultDiagnostic decl] }
  | some dv =>
    match res.program with
    | none => res
    | some p =>
      { res with program := some { p with
          initialValues := mapInsert decl.name (operandOfDefault decl.declType dv)
            p.initialValues } }

/-- Whether a declaration has a concrete (non-function, known) type — the two
filters at compiler.rs:240-244. -/
def Declaration.isConcrete (decl : Declaration) : Bool :=
  match decl.declType with
  | some YarnType.function => false
  | some _ => true
  | none => false

/-- Pass 7, `add_initial_value_registrations` (compiler.rs:236-271): loop over
the concrete-typed known declarations registering initial values (or pushing a
missing-default diagnostic), then attach the derived declarations and finally
*replace* the result's diagnostics with an enumeration of the deduplicated
`state.diagnostics` set — discarding whatever the loop just pushed and
whatever code generation contributed. -/
def add_initial_value_registrations (choice : HashChoice) (state : Intermediate) :
    Intermediate :=
  match state.result with
  | none => state
  | some res =>
    let declarations := state.knownVariableDeclarations.filter Declaration.isConcrete
    let looped := declarations.foldl registerInitialValue res
    let finished := { looped with
      declarations := state.derivedVariableDeclarations
      diagnostics := choice.diagIter state.diagnostics }
    { state with result := some finished }

/-- The pipeline state after the first four passes (these never consult the
hash-iteration choice). -/
def frontFour (ext : Externals) (job : CompilationJob) : Intermediate :=
  find_tracking_nodes ext (check_types ext (get_declarations ext
    (register_strings ext (Intermediate.fromJob job))))

/-- The pipeline state just before `generate_code`: the first five passes. -/
def frontHalf (ext : Externals) (choice : HashChoice) (job : CompilationJob) : Intermediate :=
  add_tracking_declarations choice (frontFour ext job)

/-- `compile` (compiler.rs:21-39): the strict ordered fold of the seven passes
over the initial state, returning the result installed by the last two passes. -/
def compile (ext : Externals) (choice : HashChoice) (job : CompilationJob) : CompilationResult :=
  ((add_initial_value_registrations choice
      (generate_code ext (frontHalf ext choice job))).result).getD CompilationResult.empty

/-! ## Pipeline lemmas -/

theorem frontHalf_diagnostics (ext : Externals) (choice : HashChoice) (job : CompilationJob) :
    (frontHalf ext choice job).diagnostics = (frontFour ext job).diagnostics := rfl

theorem frontHalf_stringTable (ext : Externals) (choice : HashChoice) (job : CompilationJob) :
    (frontHalf ext choice job).stringTable = (frontFour ext job).stringTable := rfl

theorem frontHalf_known (ext : Externals) (choice : HashChoice) (job : CompilationJob) :
    (frontHalf ext choice job).knownVariableDeclarations
      = (frontFour ext job).knownVariableDeclarations
        ++ (choice.trackIter (frontFour ext job).trackingNodes).map trackingDeclaration := rfl

theorem generatedResults_frontHalf (ext : Externals) (choice : HashChoice)
    (job : CompilationJob) :
    generatedResults ext (frontHalf ext choice job)
      = generatedResults ext (frontFour ext job) := rfl

theorem compile_result (ext : Externals) (choice : HashChoice) (job : CompilationJob) :
    compile ext choice job =
      { ((frontHalf ext choice job).knownVariableDeclarations.filter
            Declaration.isConcrete).foldl registerInitialValue
          (CompilationResult.combine (generatedResults ext (frontHalf ext choice job)).1
            (frontHalf ext choice job).stringTable) with
        declarations := (frontHalf ext choice job).derivedVariableDeclarations
        diagnostics := choice.diagIter (frontHalf ext choice job).diagnostics } := rfl

theorem compile_diagnostics (ext : Externals) (choice : HashChoice) (job : CompilationJob) :
    (compile ext choice job).diagnostics
      = choice.diagIter (frontHalf ext choice job).diagnostics := by
  rw [compile_result]

/-- The effect of one `registerInitialValue` step on the result's program
component, which depends only on that component. -/
def stepProgram (prog : Option Program) (decl : Declaration) : Option Program :=
  match decl.defaultValue with
  | none => prog
  | some dv =>
    match prog with
    | none => none
    | some p => some { p with
        initialValues := mapInsert decl.name (operandOfDefault decl.declType dv)
          p.initialValues }

theorem registerInitialValue_program (res : CompilationResult) (decl : Declaration) :
    (registerInitialValue res decl).program = stepProgram res.program decl := by
  cases h : decl.defaultValue <;> cases h2 : res.program <;>
    simp [registerInitialValue, stepProgram, h, h2]

theorem registerInitialValue_stringTable (res : CompilationResult) (decl : Declaration) :
    (registerInitialValue res decl).stringTable = res.stringTable := by
  cases h : decl.defaultValue <;> cases h2 : res.program <;>
    simp [registerInitialValue, h, h2]

theorem foldl_registerInitialValue_program (l : List Declaration) (res : CompilationResult) :
    (l.foldl registerInitialValue res).program = l.foldl stepProgram res.program := by
  induction l generalizing res with
  | nil => rfl
  | cons d rest ih =>
    rw [List.foldl_cons, List.foldl_cons, ih, registerInitialValue_program]

theorem foldl_registerInitialValue_stringTable (l : List Declaration)
    (res : CompilationResult) :
    (l.foldl registerInitialValue res).stringTable = res.stringTable := by
  induction l generalizing res with
  | nil => rfl
  | cons d rest ih =>
    rw [List.foldl_cons, ih, registerInitialValue_stringTable]

theorem compile_program (ext : Externals) (choice : HashChoice) (job : CompilationJob) :
    (compile ext choice job).program =
      ((frontHalf ext choice job).knownVariableDeclarations.filter
          Declaration.isConcrete).foldl stepProgram
        (CompilationResult.combine (generatedResults ext (frontHalf ext choice job)).1
          (frontHalf ext choice job).stringTable).program := by
  rw [compile_result]
  exact foldl_registerInitialValue_program _ _

theorem compile_stringTable (ext : Externals) (choice : HashChoice) (job : CompilationJob) :
    (compile ext choice job).stringTable
      = (frontHalf ext choice job).stringTable.entries := by
  rw [compile_result]
  show (List.foldl registerInitialValue _ _).stringTable = _
  rw [foldl_registerInitialValue_stringTable]
  rfl

theorem dedup_toFinset {α : Type} [DecidableEq α] (l : List α) :
    l.dedup.toFinset = l.toFinset :=
  List.toFinset.ext fun x => by simp [List.mem_dedup]

theorem diagIter_toFinset {c : HashChoice} (h : c.Admissible) (l : List Diagnostic) :
    (c.diagIter l).toFinset = l.toFinset := by
  rw [List.toFinset_eq_of_perm _ _ (h.diag_perm l), dedup_toFinset]

theorem generatedResults_of_errors (ext : Externals) {s : Intermediate}
    (h : s.diagnostics.any Diagnostic.isError = true) :
    generatedResults ext s = ([], s.trackingNodes) := by
  simp [generatedResults, h]

theorem stepProgram_none (d : Declaration) : stepProgram none d = none := by
  cases h : d.defaultValue <;> simp [stepProgram, h]

theorem foldl_stepProgram_none (l : List Declaration) :
    l.foldl stepProgram none = none := by
  induction l with
  | nil => rfl
  | cons d rest ih => rw [List.foldl_cons, stepProgram_none, ih]

/-- C1: if any diagnostic accumulated before `generate_code` has Error
severity, the final `CompilationResult` has no program, while its string table
is exactly the accumulated one and its diagnostic set is exactly the set of
accumulated diagnostics — neither is emptied or dropped. -/
theorem c1_errors_suppress_program_only (ext : Externals) (choice : HashChoice)
    (job : CompilationJob) (hadm : choice.Admissible)
    (herr : (frontHalf ext choice job).diagnostics.any Diagnostic.isError = true) :
    (compile ext choice job).program = none
    ∧ (compile ext choice job).stringTable
        = (frontHalf ext choice job).stringTable.entries
    ∧ (compile ext choice job).diagnostics.toFinset
        = (frontHalf ext choice job).diagnostics.toFinset := by
  refine ⟨?_, compile_stringTable ext choice job, ?_⟩
  · rw [compile_program, generatedResults_of_errors ext herr]
    exact foldl_stepProgram_none _
  · rw [compile_diagnostics, diagIter_toFinset hadm]

/-- A plain external-collaborator bundle whose parser emits `diags` for every
file and whose other visitors produce nothing. -/
def extWithDiags (diags : List Diagnostic) : Externals :=
  { parseDiagnostics := fun _ => diags
    stringVisit := fun _ _ => ([], StringTableM.empty)
    declVisit := fun _ _ => ([], [], [])
    typeVisit := fun _ _ => ([], [], [], [])
    trackVisit := fun _ => (∅, ∅)
    codegenFile := fun _ _ _ =>
      { trackingNodes := ∅, diagnostics := [],
        program := { nodes := [], initialValues := ∅ }, debugInfos := [] } }

/-- A parse-error diagnostic fixture. -/
def errDiag : Diagnostic :=
  { message := "Unexpected token", fileName := some "test.yarn", startLine := 3,
    severity := DiagnosticSeverity.error }

/-- A one-file job fixture. -/
def jobOneFile : CompilationJob :=
  { files := [{ fileName := "test.yarn", source := "title: test" }],
    compilationType := CompilationType.fullCompilation, variableDeclarations := [] }

/-- A two-file job fixture. -/
def jobTwoFiles : CompilationJob :=
  { files := [{ fileName := "a.yarn", source := "A" }, { fileName := "b.yarn", source := "B" }],
    compilationType := CompilationType.fullCompilation, variableDeclarations := [] }

/-- A computable, kernel-evaluable enumeration of a finite set of strings in
ascending order, lifted over the multiset quotient via insertion sort. -/
def finsetEnum (s : Finset String) : List String :=
  Quot.liftOn s.val (fun l => List.insertionSort (· ≤ ·) l) fun l1 l2 h =>
    List.eq_of_perm_of_sorted
      ((List.perm_insertionSort _ l1).trans
        (List.Perm.trans h (List.perm_insertionSort _ l2).symm))
      (List.sorted_insertionSort _ l1) (List.sorted_insertionSort _ l2)

theorem finsetEnum_spec (s : Finset String) :
    (finsetEnum s).Nodup ∧ (finsetEnum s).toFinset = s := by
  rcases s with ⟨val, hn⟩
  revert hn
  refine Quotient.inductionOn val ?_
  intro l hn
  have hl : l.Nodup := by simpa using hn
  have hp : List.Perm (List.insertionSort (· ≤ ·) l) l := List.perm_insertionSort _ l
  refine ⟨hp.symm.nodup hl, ?_⟩
  show (List.insertionSort (· ≤ ·) l).toFinset = _
  rw [List.toFinset_eq_of_perm _ _ hp]
  exact (List.toFinset_eq hl).symm

/-- The canonical admissible hash-iteration choice: first-occurrence order for
the diagnostics set, ascending order for the tracking-node set. -/
def choiceDedup : HashChoice :=
  { diagIter := fun l => l.dedup, trackIter := finsetEnum }

theorem choiceDedup_admissible : choiceDedup.Admissible :=
  ⟨fun _ => List.Perm.refl _, fun s => (finsetEnum_spec s).1, fun s => (finsetEnum_spec s).2⟩

/-- A second admissible choice, enumerating both sets in reversed order. -/
def choiceRev : HashChoice :=
  { diagIter := fun l => l.dedup.reverse, trackIter := fun s => (finsetEnum s).reverse }

theorem choiceRev_admissible : choiceRev.Admissible :=
  ⟨fun _ => List.reverse_perm _,
    fun s => List.nodup_reverse.mpr (finsetEnum_spec s).1,
    fun s => by
      show ((finsetEnum s).reverse).toFinset = s
      rw [List.toFinset_reverse]
      exact (finsetEnum_spec s).2⟩

/-- Witness for C1 at a one-file job whose parse emits an Error diagnostic. -/
theorem c1_errors_suppress_program_only_witness :
    choiceDedup.Admissible
    ∧ (frontHalf (extWithDiags [errDiag]) choiceDedup jobOneFile).diagnostics.any
        Diagnostic.isError = true
    ∧ ((compile (extWithDiags [errDiag]) choiceDedup jobOneFile).program = none
      ∧ (compile (extWithDiags [errDiag]) choiceDedup jobOneFile).stringTable
          = (frontHalf (extWithDiags [errDiag]) choiceDedup jobOneFile).stringTable.entries
      ∧ (compile (extWithDiags [errDiag]) choiceDedup jobOneFile).diagnostics.toFinset
          = (frontHalf (extWithDiags [errDiag]) choiceDedup jobOneFile).diagnostics.toFinset) :=
  ⟨choiceDedup_admissible, by decide,
    c1_errors_suppress_program_only _ _ _ choiceDedup_admissible (by decide)⟩

/-- C5: the diagnostic list attached to the final result contains no two
structurally equal diagnostics, and two runs whose accumulated diagnostics are
permutations of one another (and in particular runs observing different hash
orders) return the same diagnostic set. -/
theorem c5_final_diagnostics_deduplicated (ext1 ext2 : Externals) (c1 c2 : HashChoice)
    (job1 job2 : CompilationJob) (h1 : c1.Admissible) (h2 : c2.Admissible)
    (hperm : List.Perm (frontHalf ext1 c1 job1).diagnostics
      (frontHalf ext2 c2 job2).diagnostics) :
    (compile ext1 c1 job1).diagnostics.Nodup
    ∧ (compile ext1 c1 job1).diagnostics.toFinset
        = (compile ext2 c2 job2).diagnostics.toFinset := by
  constructor
  · rw [compile_diagnostics]
    exact (h1.diag_perm _).symm.nodup (List.nodup_dedup _)
  · rw [compile_diagnostics, compile_diagnostics, diagIter_toFinset h1, diagIter_toFinset h2]
    exact List.toFinset_eq_of_perm _ _ hperm

/-- Witness for C5: two files each producing the byte-identical diagnostic,
compiled under two different hash-iteration orders. -/
theorem c5_final_diagnostics_deduplicated_witness :
    choiceDedup.Admissible ∧ choiceRev.Admissible
    ∧ List.Perm (frontHalf (extWithDiags [errDiag]) choiceDedup jobTwoFiles).diagnostics
        (frontHalf (extWithDiags [errDiag]) choiceRev jobTwoFiles).diagnostics
    ∧ ((compile (extWithDiags [errDiag]) choiceDedup jobTwoFiles).diagnostics.Nodup
      ∧ (compile (extWithDiags [errDiag]) choiceDedup jobTwoFiles).diagnostics.toFinset
          = (compile (extWithDiags [errDiag]) choiceRev jobTwoFiles).diagnostics.toFinset) :=
  ⟨choiceDedup_admissible, choiceRev_admissible, by decide,
    c5_final_diagnostics_deduplicated _ _ _ _ _ _ choiceDedup_admissible choiceRev_admissible
      (by decide)⟩

theorem foldl_union_pair_mem (ext : Externals) (files : List YarnFile)
    (A B : Finset String) (n : String) :
    (n ∈ (files.foldl
        (fun acc file => (acc.1 ∪ (ext.trackVisit file).1, acc.2 ∪ (ext.trackVisit file).2))
        (A, B)).1 ↔ n ∈ A ∨ ∃ f ∈ files, n ∈ (ext.trackVisit f).1)
    ∧ (n ∈ (files.foldl
        (fun acc file => (acc.1 ∪ (ext.trackVisit file).1, acc.2 ∪ (ext.trackVisit file).2))
        (A, B)).2 ↔ n ∈ B ∨ ∃ f ∈ files, n ∈ (ext.trackVisit f).2) := by
  induction files generalizing A B with
  | nil => simp
  | cons f rest ih =>
    constructor
    · rw [List.foldl_cons, (ih (A ∪ (ext.trackVisit f).1) (B ∪ (ext.trackVisit f).2)).1]
      simp only [Finset.mem_union, List.mem_cons]
      constructor
      · rintro ((h | h) | ⟨g, hg, hmem⟩)
        · exact Or.inl h
        · exact Or.inr ⟨f, Or.inl rfl, h⟩
        · exact Or.inr ⟨g, Or.inr hg, hmem⟩
      · rintro (h | ⟨g, (rfl | hg), hmem⟩)
        · exact Or.inl (Or.inl h)
        · exact Or.inl (Or.inr hmem)
        · exact Or.inr ⟨g, hg, hmem⟩
    · rw [List.foldl_cons, (ih (A ∪ (ext.trackVisit f).1) (B ∪ (ext.trackVisit f).2)).2]
      simp only [Finset.mem_union, List.mem_cons]
      constructor
      · rintro ((h | h) | ⟨g, hg, hmem⟩)
        · exact Or.inl h
        · exact Or.inr ⟨f, Or.inl rfl, h⟩
        · exact Or.inr ⟨g, Or.inr hg, hmem⟩
      · rintro (h | ⟨g, (rfl | hg), hmem⟩)
        · exact Or.inl (Or.inl h)
        · exact Or.inl (Or.inr hmem)
        · exact Or.inr ⟨g, hg, hmem⟩

/-- C6: after `find_tracking_nodes`, a node is tracked iff some file
discovered it as needing visit tracking and no file opted it out (the set
difference of the two unions); a node appearing in both sets is never
tracked; and the tracked set is invariant under permuting the file list. -/
theorem c6_tracking_nodes_set_difference (ext : Externals) (state : Intermediate) :
    (∀ n, n ∈ (find_tracking_nodes ext state).trackingNodes ↔
        ((∃ f ∈ state.parsedFiles, n ∈ (ext.trackVisit f).1)
          ∧ ¬ ∃ f ∈ state.parsedFiles, n ∈ (ext.trackVisit f).2))
    ∧ (∀ n, (∃ f ∈ state.parsedFiles, n ∈ (ext.trackVisit f).1) →
        (∃ f ∈ state.parsedFiles, n ∈ (ext.trackVisit f).2) →
        n ∉ (find_tracking_nodes ext state).trackingNodes)
    ∧ ∀ files' : List YarnFile, List.Perm files' state.parsedFiles →
        (find_tracking_nodes ext { state with parsedFiles := files' }).trackingNodes
          = (find_tracking_nodes ext state).trackingNodes := by
  have hmem : ∀ (st : Intermediate) (n : String),
      n ∈ (find_tracking_nodes ext st).trackingNodes ↔
        ((∃ f ∈ st.parsedFiles, n ∈ (ext.trackVisit f).1)
          ∧ ¬ ∃ f ∈ st.parsedFiles, n ∈ (ext.trackVisit f).2) := by
    intro st n
    show n ∈ _ \ _ ↔ _
    rw [Finset.mem_sdiff, (foldl_union_pair_mem ext st.parsedFiles ∅ ∅ n).1,
      (foldl_union_pair_mem ext st.parsedFiles ∅ ∅ n).2]
    simp
  refine ⟨hmem state, ?_, ?_⟩
  · intro n h1 h2 hcontra
    exact ((hmem state n).mp hcontra).2 h2
  · intro files' hperm
    apply Finset.ext
    intro n
    rw [hmem { state with parsedFiles := files' } n, hmem state n]
    constructor
    · rintro ⟨⟨f, hf, hp⟩, hno⟩
      exact ⟨⟨f, hperm.mem_iff.mp hf, hp⟩,
        fun ⟨g, hg, hgp⟩ => hno ⟨g, hperm.mem_iff.mpr hg, hgp⟩⟩
    · rintro ⟨⟨f, hf, hp⟩, hno⟩
      exact ⟨⟨f, hperm.mem_iff.mpr hf, hp⟩,
        fun ⟨g, hg, hgp⟩ => hno ⟨g, hperm.mem_iff.mp hg, hgp⟩⟩

/-- Externals whose tracking visitor reports, for the first fixture file, the
nodes `n1`, `n2` as tracked, and for any other file reports `n2` as opted out. -/
def extTrack : Externals :=
  { extWithDiags [] with
    trackVisit := fun f =>
      if f.fileName = "a.yarn" then ({"n1", "n2"}, ∅) else (∅, {"n2"}) }

/-- A pipeline state fixture holding the two parsed fixture files. -/
def stateTwoParsed : Intermediate :=
  { Intermediate.fromJob jobTwoFiles with parsedFiles := jobTwoFiles.files }

/-- Witness for C6 at the fixture state: `n2` is discovered both as tracked
and as opted out and is not tracked; reversing the file order leaves the
tracked set unchanged. -/
theorem c6_tracking_nodes_set_difference_witness :
    (∃ f ∈ stateTwoParsed.parsedFiles, "n2" ∈ (extTrack.trackVisit f).1)
    ∧ (∃ f ∈ stateTwoParsed.parsedFiles, "n2" ∈ (extTrack.trackVisit f).2)
    ∧ "n2" ∉ (find_tracking_nodes extTrack stateTwoParsed).trackingNodes
    ∧ List.Perm stateTwoParsed.parsedFiles.reverse stateTwoParsed.parsedFiles
    ∧ (find_tracking_nodes extTrack
          { stateTwoParsed with parsedFiles := stateTwoParsed.parsedFiles.reverse }).trackingNodes
        = (find_tracking_nodes extTrack stateTwoParsed).trackingNodes :=
  ⟨by decide, by decide,
    (c6_tracking_nodes_set_difference extTrack stateTwoParsed).2.1 "n2" (by decide) (by decide),
    List.reverse_perm _,
    (c6_tracking_nodes_set_difference extTrack stateTwoParsed).2.2 _ (List.reverse_perm _)⟩

/-- The empty compilation job. -/
def emptyJob : CompilationJob :=
  { files := [], compilationType := CompilationType.fullCompilation,
    variableDeclarations := [] }

/-- C8 counterexample: compiling the empty job yields *no* program —
`program` is `None`, not a present-but-empty `Program`. With zero files the
codegen pass has no per-file results, exactly as in the error path, and
combining an empty collection of results carries no program (the same fact
claim C1 relies on). -/
theorem c8_empty_job_counterexample :
    (compile (extWithDiags []) choiceDedup emptyJob).program = none
    ∧ ∀ p : Program, (compile (extWithDiags []) choiceDedup emptyJob).program ≠ some p := by
  have h : (compile (extWithDiags []) choiceDedup emptyJob).program = none := by decide
  exact ⟨h, fun p hp => Option.noConfusion (h ▸ hp)⟩

/-- C8 (amended): compiling a job with an empty file list returns the empty
result: no program, an empty string table and an empty diagnostic set (and
empty declarations and debug info). -/
theorem c8_empty_job_yields_empty_result (ext : Externals) (choice : HashChoice)
    (hadm : choice.Admissible) (job : CompilationJob) (hfiles : job.files = []) :
    compile ext choice job = CompilationResult.empty := by
  have hreg : register_strings ext (Intermediate.fromJob job) = Intermediate.fromJob job := by
    rw [register_strings]
    show (Intermediate.fromJob job).job.files.foldl _ _ = _
    rw [show (Intermediate.fromJob job).job = job from rfl, hfiles]
    rfl
  have hfront : frontFour ext job = Intermediate.fromJob job := by
    rw [frontFour, hreg]
    show find_tracking_nodes ext (Intermediate.fromJob job) = Intermediate.fromJob job
    show ({ Intermediate.fromJob job with
      trackingNodes := (∅ : Finset String) \ (∅ : Finset String) } : Intermediate)
        = Intermediate.fromJob job
    rw [Finset.empty_sdiff]
    rfl
  have htrack : choice.trackIter (∅ : Finset String) = [] := by
    have h := hadm.track_toFinset (∅ : Finset String)
    exact (List.toFinset_eq_empty_iff _).mp h
  have hhalf : frontHalf ext choice job = Intermediate.fromJob job := by
    rw [frontHalf, hfront, add_tracking_declarations]
    rw [show (Intermediate.fromJob job).trackingNodes = (∅ : Finset String) from rfl, htrack]
    rfl
  have hdi : choice.diagIter [] = [] :=
    List.Perm.eq_nil (by simpa using hadm.diag_perm [])
  have hstep : compile ext choice job
      = { CompilationResult.empty with diagnostics := choice.diagIter [] } := by
    rw [compile_result, hhalf]
    rfl
  rw [hstep, hdi]
  rfl

/-- Witness for C8 (amended) at the empty job. -/
theorem c8_empty_job_yields_empty_result_witness :
    choiceDedup.Admissible ∧ emptyJob.files = []
    ∧ compile (extWithDiags []) choiceDedup emptyJob = CompilationResult.empty :=
  ⟨choiceDedup_admissible, rfl,
    c8_empty_job_yields_empty_result _ _ choiceDedup_admissible _ rfl⟩

/-- A declaration of `$x: Number` with no default value. -/
def declNoDefault : Declaration :=
  { name := "$x", declType := some YarnType.number, defaultValue := none,
    description := "" }

/-- A declaration of `$y: Number` with default value 2. -/
def declWithDefault : Declaration :=
  { name := "$y", declType := some YarnType.number,
    defaultValue := some (YarnValue.number 2), description := "" }

/-- Externals whose declaration visitor reports the two fixture declarations
and whose other visitors report nothing. -/
def extTwoDecls : Externals :=
  { extWithDiags [] with
    declVisit := fun _ _ => ([declNoDefault, declWithDefault], [], []) }

/-- C2 (code bug): at a job declaring `$x: Number` without a default and
`$y: Number` with default 2, compilation does not abort and `$x` alone is
omitted from the program's initial values (`$y` still receives its entry) —
but the missing-default diagnostic the loop pushes for `$x`
(compiler.rs:249-252) is *absent* from the final result, because
compiler.rs:267-269 rebuilds `result.diagnostics` from `state.diagnostics`,
which never received it: the final diagnostic list is empty. -/
theorem c2_missing_default_diagnostic_dropped :
    (compile extTwoDecls choiceDedup jobOneFile).diagnostics = []
    ∧ missingDefaultDiagnostic declNoDefault
        ∉ (compile extTwoDecls choiceDedup jobOneFile).diagnostics
    ∧ (compile extTwoDecls choiceDedup jobOneFile).program
        = some { nodes := [], initialValues := {("$y", Operand.floatOperand 2)} } :=
  ⟨by decide, by decide, by decide⟩

/-! ## Determinism of `compile` across hash-iteration orders (C9) -/

theorem generated_name_injective :
    Function.Injective generate_unique_visited_variable_for_node := by
  intro a b h
  have hd : ("$Yarn.Internal.Visiting." ++ a).data
      = ("$Yarn.Internal.Visiting." ++ b).data := congrArg String.data h
  rw [String.data_append, String.data_append] at hd
  exact String.ext (List.append_cancel_left hd)

theorem trackList_names_nodup {t : List String} (h : t.Nodup) :
    ((t.map trackingDeclaration).map Declaration.name).Nodup := by
  rw [List.map_map]
  exact h.map fun a b hab => generated_name_injective hab

theorem trackIter_perm {c1 c2 : HashChoice} (h1 : c1.Admissible) (h2 : c2.Admissible)
    (s : Finset String) : List.Perm (c1.trackIter s) (c2.trackIter s) :=
  List.perm_of_nodup_nodup_toFinset_eq (h1.track_nodup s) (h2.track_nodup s)
    (by rw [h1.track_toFinset, h2.track_toFinset])

theorem mapInsert_comm {k1 k2 : String} (v1 v2 : Operand) (m : Finset (String × Operand))
    (h : k1 ≠ k2) :
    mapInsert k1 v1 (mapInsert k2 v2 m) = mapInsert k2 v2 (mapInsert k1 v1 m) := by
  apply Finset.ext
  intro p
  simp only [mapInsert, Finset.mem_insert, Finset.mem_filter]
  constructor
  · rintro (rfl | ⟨(rfl | ⟨hm, hk2⟩), hk1⟩)
    · exact Or.inr ⟨Or.inl rfl, h⟩
    · exact Or.inl rfl
    · exact Or.inr ⟨Or.inr ⟨hm, hk1⟩, hk2⟩
  · rintro (rfl | ⟨(rfl | ⟨hm, hk1⟩), hk2⟩)
    · exact Or.inr ⟨Or.inl rfl, h.symm⟩
    · exact Or.inl rfl
    · exact Or.inr ⟨Or.inr ⟨hm, hk2⟩, hk1⟩

theorem stepProgram_comm {d1 d2 : Declaration} (prog : Option Program)
    (h : d1.name ≠ d2.name) :
    stepProgram (stepProgram prog d1) d2 = stepProgram (stepProgram prog d2) d1 := by
  cases hd1 : d1.defaultValue with
  | none => cases hd2 : d2.defaultValue <;> simp [stepProgram, hd1, hd2]
  | some v1 =>
    cases hd2 : d2.defaultValue with
    | none => simp [stepProgram, hd1, hd2]
    | some v2 =>
      cases prog with
      | none => simp [stepProgram, hd1, hd2]
      | some p =>
        simp only [stepProgram, hd1, hd2]
        rw [mapInsert_comm _ _ _ h.symm]

theorem foldl_stepProgram_perm :
    ∀ {l1 l2 : List Declaration}, List.Perm l1 l2 →
      (l1.map Declaration.name).Nodup →
      ∀ prog : Option Program, l1.foldl stepProgram prog = l2.foldl stepProgram prog := by
  intro l1 l2 hperm
  induction hperm with
  | nil => intro _ _; rfl
  | cons x p ih =>
    intro hnodup prog
    rw [List.foldl_cons, List.foldl_cons]
    exact ih (by simpa using (List.nodup_cons.mp (by simpa using hnodup)).2) _
  | swap x y l =>
    intro hnodup prog
    have hne : y.name ≠ x.name := by
      simp only [List.map_cons, List.nodup_cons] at hnodup
      intro e
      exact hnodup.1 (by simp [e])
    rw [List.foldl_cons, List.foldl_cons, List.foldl_cons, List.foldl_cons,
      stepProgram_comm prog hne]
  | trans p12 p23 ih1 ih2 =>
    intro hnodup prog
    have hnodup2 : (_ : List Declaration).map Declaration.name |>.Nodup :=
      ((p12.map Declaration.name).nodup_iff).mp hnodup
    exact (ih1 hnodup prog).trans (ih2 hnodup2 prog)

/-- C9: `compile` is deterministic across runs: for one job and one set of
external collaborators, any two admissible hash-iteration orders (the only
run-to-run nondeterminism `compiler.rs` exhibits) produce the identical
program and the identical post-deduplication diagnostic set. -/
theorem c9_compile_deterministic (ext : Externals) (job : CompilationJob)
    (c1 c2 : HashChoice) (h1 : c1.Admissible) (h2 : c2.Admissible) :
    (compile ext c1 job).program = (compile ext c2 job).program
    ∧ (compile ext c1 job).diagnostics.toFinset
        = (compile ext c2 job).diagnostics.toFinset := by
  constructor
  · rw [compile_program, compile_program, generatedResults_frontHalf,
      generatedResults_frontHalf, frontHalf_stringTable, frontHalf_stringTable,
      frontHalf_known, frontHalf_known, List.filter_append, List.filter_append,
      List.foldl_append, List.foldl_append]
    have hself : ∀ t : List String,
        (t.map trackingDeclaration).filter Declaration.isConcrete
          = t.map trackingDeclaration := by
      intro t
      apply List.filter_eq_self.mpr
      intro d hd
      rcases List.mem_map.mp hd with ⟨n, _, rfl⟩
      rfl
    rw [hself, hself]
    exact foldl_stepProgram_perm
      ((trackIter_perm h1 h2 (frontFour ext job).trackingNodes).map trackingDeclaration)
      (trackList_names_nodup (h1.track_nodup _)) _
  · rw [compile_diagnostics, compile_diagnostics, diagIter_toFinset h1,
      diagIter_toFinset h2, frontHalf_diagnostics, frontHalf_diagnostics]

/-- Externals whose tracking visitor marks the nodes `m1`, `m2` of every file
for tracking, exercising the tracking-declaration order in the witness. -/
def extTrackTwo : Externals :=
  { extWithDiags [] with trackVisit := fun _ => ({"m1", "m2"}, ∅) }

/-- Witness for C9 at a concrete job under the two reversed enumeration
orders. -/
theorem c9_compile_deterministic_witness :
    choiceDedup.Admissible ∧ choiceRev.Admissible
    ∧ ((compile extTrackTwo choiceDedup jobOneFile).program
          = (compile extTrackTwo choiceRev jobOneFile).program
      ∧ (compile extTrackTwo choiceDedup jobOneFile).diagnostics.toFinset
          = (compile extTrackTwo choiceRev jobOneFile).diagnostics.toFinset) :=
  ⟨choiceDedup_admissible, choiceRev_admissible,
    c9_compile_deterministic extTrackTwo jobOneFile choiceDedup choiceRev
      choiceDedup_admissible choiceRev_admissible⟩
